import Mathlib

/-!
Verification development for the rate-limited follow scheduler of this
repository (`my_twitter_api_v3/follows/follow_system.py` and
`my_twitter_api_v3/follows/twikit_follower.py`).

Shallow embedding conventions:
* Time is modelled as natural-number seconds.  `datetime.now()` becomes an
  explicit clock threaded through every operation; every `time.sleep(d)`
  advances the clock by `d`.
* `now.replace(second=0, microsecond=0) + timedelta(minutes=1)` becomes
  `now / 60 * 60 + 60`; the day variant uses `86400`.
* `random.uniform(0, 2)` (the jitter sampled in `_wait_between_follows`) and
  the duration and outcome of the browser/twikit action are inputs of each
  attempt (`AttemptEnv`), so every theorem quantifies over them.
* The unbounded recursion of `_check_rate_limits` (it calls itself after
  sleeping out the minute window) is embedded with explicit fuel; `none`
  means the recursion did not finish within the allotted calls.  The callers
  use fuel 2, which `check_rate_limits_terminates` below proves sufficient
  whenever `follows_per_minute ≥ 1`; with `follows_per_minute = 0` the
  source recursion never returns and the embedding yields `none` for every
  fuel, so no information is lost.
* User dictionaries are represented by their `id` (a `Nat`); the batch code
  compares whole dictionaries only through equality (`list.remove`) and
  through their `id` (the `followed_users` check), which coincide here.
* `SuccessEvent` is ghost instrumentation: it records, for every successful
  follow, the clock at which `_check_rate_limits` granted admission
  (`grantTime`) and the clock at which the counters were incremented and
  `last_follow_time` was set (`recordTime`).
-/

/-- `RateLimitTracker` of both follower modules (dataclass with the same
five fields in `follow_system.py` and `twikit_follower.py`). -/
structure RateLimitTracker where
  follows_today : Nat
  follows_this_minute : Nat
  last_follow_time : Option Nat
  minute_reset_time : Option Nat
  day_reset_time : Option Nat
deriving DecidableEq, Repr

/-- Fresh tracker, as constructed in `__init__` (all counters 0, all
timestamps unset). -/
def initTracker : RateLimitTracker :=
  { follows_today := 0, follows_this_minute := 0, last_follow_time := none,
    minute_reset_time := none, day_reset_time := none }

/-- The rate-limit and retry configuration loaded by `_setup_rate_limits`
(defaults: 15, 400, 4, 3, 10). -/
structure FollowConfig where
  follows_per_minute : Nat
  follows_per_day : Nat
  delay_between_follows : Nat
  max_attempts : Nat
  delay_on_error : Nat
deriving DecidableEq, Repr

/-- Environment of one attempt: time passing before the attempt starts,
the jitter sampled by `random.uniform`, the time the underlying action
takes, and whether it reports success. -/
structure AttemptEnv where
  preDelay : Nat
  jitter : Nat
  actionTime : Nat
  actionOk : Bool
deriving DecidableEq, Repr

/-- Ghost record of one successful follow: the clock at admission
(`grantTime`) and the clock at the post-action accounting (`recordTime`,
the value stored into `last_follow_time`). -/
structure SuccessEvent where
  grantTime : Nat
  recordTime : Nat
deriving DecidableEq, Repr

/-- Scheduler state: the tracker, the current clock, and the
`followed_users` set (a list of ids, used only through membership). -/
structure SchedState where
  tracker : RateLimitTracker
  clock : Nat
  followedUsers : List Nat
deriving DecidableEq, Repr

def initState (c0 : Nat) : SchedState :=
  { tracker := initTracker, clock := c0, followedUsers := [] }

/-- One window-reset step shared by the day and the minute counter of
`_check_rate_limits`: if the stored reset time is unset or has passed,
zero the counter and move the reset time to the next multiple of `W`
after `now` (the code's `now.replace(...) + timedelta(...)`). -/
def rollWin (W count : Nat) (resetT : Option Nat) (now : Nat) : Nat × Nat :=
  match resetT with
  | some m => if now < m then (count, m) else (0, now / W * W + W)
  | none => (0, now / W * W + W)

/-- Daily-counter reset of `_check_rate_limits` (lines 88-92 / 160-164). -/
def resetDay (tr : RateLimitTracker) (now : Nat) : RateLimitTracker :=
  { tr with
    follows_today := (rollWin 86400 tr.follows_today tr.day_reset_time now).1
    day_reset_time := some (rollWin 86400 tr.follows_today tr.day_reset_time now).2 }

/-- Minute-counter reset of `_check_rate_limits` (lines 94-98 / 166-170). -/
def resetMinute (tr : RateLimitTracker) (now : Nat) : RateLimitTracker :=
  { tr with
    follows_this_minute := (rollWin 60 tr.follows_this_minute tr.minute_reset_time now).1
    minute_reset_time := some (rollWin 60 tr.follows_this_minute tr.minute_reset_time now).2 }

/-- Both reset steps, in source order (day first, then minute). -/
def resetWindows (tr : RateLimitTracker) (now : Nat) : RateLimitTracker :=
  resetMinute (resetDay tr now) now

/-- `_check_rate_limits`, identical in both modules.  Returns the admission
decision together with the mutated tracker and the clock after any sleeps.
`fuel` bounds the number of executions of the body (the source recurses
without bound after sleeping out the minute window); `none` means the
recursion did not return within `fuel` calls.  The inner `none` branch is
unreachable: `resetWindows` always sets `minute_reset_time`. -/
def checkRateLimits (cfg : FollowConfig) :
    Nat → RateLimitTracker → Nat → Option (Bool × RateLimitTracker × Nat)
  | 0, _, _ => none
  | fuel + 1, tr, now =>
    let tr1 := resetWindows tr now
    if cfg.follows_per_day ≤ tr1.follows_today then
      some (false, tr1, now)
    else if cfg.follows_per_minute ≤ tr1.follows_this_minute then
      match tr1.minute_reset_time with
      | some m => checkRateLimits cfg fuel tr1 (now + (m - now) + 1)
      | none => none
    else
      some (true, tr1, now)

/-- `_wait_between_follows` (twikit variant, lines 186-198; the
`follow_system.py` variant is the special case `jitter = 0`).  Returns the
clock after the optional sleep. -/
def waitBetweenFollows (cfg : FollowConfig) (tr : RateLimitTracker)
    (now jitter : Nat) : Nat :=
  match tr.last_follow_time with
  | none => now
  | some last =>
    if now - last < cfg.delay_between_follows + jitter then
      now + (cfg.delay_between_follows + jitter - (now - last))
    else now

/-- Result of one `follow_user` call.  `event` and `invoked` are ghost
instrumentation: `invoked` records whether the underlying follow action
was actually executed (admission granted). -/
structure FollowResult where
  success : Bool
  state : SchedState
  event : Option SuccessEvent
  invoked : Bool
deriving DecidableEq, Repr

/-- `follow_user` (lines 268-297 of `twikit_follower.py`; lines 164-185 of
`follow_system.py` are identical up to the `followed_users` bookkeeping):
check rate limits, wait out the spacing delay, run the action, and on
success increment both counters, set `last_follow_time` and record the id.
The check runs with fuel 2; see `check_rate_limits_terminates`. -/
def followUser (cfg : FollowConfig) (st : SchedState) (env : AttemptEnv)
    (uid : Nat) : Option FollowResult :=
  match checkRateLimits cfg 2 st.tracker (st.clock + env.preDelay) with
  | none => none
  | some (false, tr1, now1) =>
    some { success := false, state := { tracker := tr1, clock := now1, followedUsers := st.followedUsers },
           event := none, invoked := false }
  | some (true, tr1, now1) =>
    let now2 := waitBetweenFollows cfg tr1 now1 env.jitter
    let now3 := now2 + env.actionTime
    if env.actionOk then
      some { success := true,
             state := { tracker :=
                          { tr1 with follows_today := tr1.follows_today + 1,
                                     follows_this_minute := tr1.follows_this_minute + 1,
                                     last_follow_time := some now3 },
                        clock := now3, followedUsers := uid :: st.followedUsers },
             event := some { grantTime := now1, recordTime := now3 }, invoked := true }
    else
      some { success := false, state := { tracker := tr1, clock := now3, followedUsers := st.followedUsers },
             event := none, invoked := true }

/-- A sequence of `follow_user` calls (the single-user interface, and the
shape of every execution of the scheduler).  Produces the final state and
the chronological list of success events. -/
def runFollows (cfg : FollowConfig) (st : SchedState) :
    List (Nat × AttemptEnv) → Option (SchedState × List SuccessEvent)
  | [] => some (st, [])
  | (uid, env) :: rest =>
    match followUser cfg st env uid with
    | none => none
    | some r =>
      match runFollows cfg r.state rest with
      | none => none
      | some (st', log) => some (st', r.event.toList ++ log)

/-- State of one `follow_collected_users` run: scheduler state, the
`self.users_to_follow` list, the `followed`/`failed` locals, and ghost
counters: `calls` = number of `follow_user` calls made, `invocations` =
number of times the underlying follow action was executed. -/
structure BatchState where
  sched : SchedState
  usersToFollow : List Nat
  followed : Nat
  failed : Nat
  calls : Nat
  invocations : Nat
deriving DecidableEq, Repr

/-- Body of the `for user in users_to_process` loop of
`follow_collected_users` (lines 331-344) for one non-skipped element `u`:
call `follow_user`, bump the counters, and `remove` the first occurrence
of `u` from `users_to_follow`. -/
def batchStep (bs : BatchState) (u : Nat) (r : FollowResult) : BatchState :=
  { sched := r.state
    usersToFollow := bs.usersToFollow.erase u
    followed := bs.followed + (if r.success then 1 else 0)
    failed := bs.failed + (if r.success then 0 else 1)
    calls := bs.calls + 1
    invocations := bs.invocations + (if r.invoked then 1 else 0) }

/-- The loop of `follow_collected_users` when `max_users` is given: Python
slices `users_to_follow[:max_users]`, a copy, so iteration walks the fixed
list `P` while removals only mutate `usersToFollow`. -/
def followLoopCopy (cfg : FollowConfig) (envf : Nat → AttemptEnv) :
    List Nat → BatchState → Option BatchState
  | [], bs => some bs
  | u :: rest, bs =>
    if u ∈ bs.sched.followedUsers then
      followLoopCopy cfg envf rest bs
    else
      match followUser cfg bs.sched (envf bs.calls) u with
      | none => none
      | some r => followLoopCopy cfg envf rest (batchStep bs u r)

/-- The loop of `follow_collected_users` when `max_users is None`: then
`users_to_process` aliases `users_to_follow`, so the `for` loop iterates
by index over the very list the body removes from (CPython semantics:
the hidden index advances regardless of removals).  `fuel` bounds the
iteration count; since the index grows by one per iteration and the list
never grows, `fuel = usersToFollow.length` always suffices, so the
fuel-exhaustion `none` is unreachable from `followCollectedUsers`. -/
def followLoopAlias (cfg : FollowConfig) (envf : Nat → AttemptEnv) :
    Nat → Nat → BatchState → Option BatchState
  | 0, i, bs => if i < bs.usersToFollow.length then none else some bs
  | fuel + 1, i, bs =>
    match bs.usersToFollow.get? i with
    | none => some bs
    | some u =>
      if u ∈ bs.sched.followedUsers then
        followLoopAlias cfg envf fuel (i + 1) bs
      else
        match followUser cfg bs.sched (envf bs.calls) u with
        | none => none
        | some r => followLoopAlias cfg envf fuel (i + 1) (batchStep bs u r)

/-- `follow_collected_users` (lines 318-350): early return on an empty
list, slice by `max_users` when given, run the loop, and report
`skipped = len(users_to_process) - followed - failed` — where
`users_to_process` is the copy in the sliced case but the final (mutated)
`users_to_follow` in the aliased case.  Python integers may go negative,
hence `Int`. -/
def followCollectedUsers (cfg : FollowConfig) (envf : Nat → AttemptEnv)
    (maxUsers : Option Nat) (sched : SchedState) (utf : List Nat) :
    Option (BatchState × Int) :=
  let bs0 : BatchState :=
    { sched := sched, usersToFollow := utf, followed := 0, failed := 0,
      calls := 0, invocations := 0 }
  if utf = [] then some (bs0, 0)
  else
    match maxUsers with
    | some k =>
      (followLoopCopy cfg envf (utf.take k) bs0).map
        (fun bs => (bs, ((utf.take k).length : Int) - (bs.followed : Int) - (bs.failed : Int)))
    | none =>
      (followLoopAlias cfg envf utf.length 0 bs0).map
        (fun bs => (bs, (bs.usersToFollow.length : Int) - (bs.followed : Int) - (bs.failed : Int)))

/-! ## Window-counting invariant

`wcount W ts k` counts the recorded grant times that fall in the `k`-th
calendar window of width `W` (minute: `W = 60`, day: `W = 86400`). -/

def wcount (W : Nat) (ts : List Nat) (k : Nat) : Nat :=
  ts.countP (fun t => t / W == k)

def grantTimes (log : List SuccessEvent) : List Nat :=
  log.map (fun e => e.grantTime)

def recordTimes (log : List SuccessEvent) : List Nat :=
  log.map (fun e => e.recordTime)

/-- Invariant tying one counter/reset-time pair of the tracker to the
grant times logged so far: the reset time is a positive multiple of `W`,
lies in `(clock, clock/W*W + W]`... more precisely is at most one window
past the clock's window start; all logged grants precede it; the counter
equals the number of grants in the window just before the reset time; and
every window holds at most `q` grants. -/
def WinInv (W q count : Nat) (resetT : Option Nat) (clock : Nat) (ts : List Nat) : Prop :=
  match resetT with
  | none => count = 0 ∧ ts = []
  | some m =>
    m % W = 0 ∧ 0 < m ∧ m ≤ clock / W * W + W ∧
    (∀ t ∈ ts, t < m) ∧ count = wcount W ts (m / W - 1) ∧
    ∀ k, wcount W ts k ≤ q

/-! Arithmetic helpers about flooring to a window of width `W`. -/

lemma lt_boundary (W : Nat) (hW : 0 < W) (now : Nat) : now < now / W * W + W := by
  calc now = now / W * W + now % W := (Nat.div_add_mod' now W).symm
    _ < now / W * W + W := Nat.add_lt_add_left (Nat.mod_lt now hW) _

lemma boundary_mod (W now : Nat) : (now / W * W + W) % W = 0 := by
  have h : now / W * W + W = (now / W + 1) * W := by ring
  rw [h, Nat.mul_mod_left]

lemma boundary_div (W : Nat) (hW : 0 < W) (now : Nat) :
    (now / W * W + W) / W = now / W + 1 := by
  have h : now / W * W + W = (now / W + 1) * W := by ring
  rw [h, Nat.mul_div_cancel _ hW]

lemma floor_mono (W a b : Nat) (h : a ≤ b) : a / W * W ≤ b / W * W :=
  Nat.mul_le_mul_right _ (Nat.div_le_div_right h)

lemma aligned_le_floor (W m now : Nat) (hm : m % W = 0) (h : m ≤ now) :
    m ≤ now / W * W := by
  calc m = m / W * W := (Nat.div_mul_cancel (Nat.dvd_of_mod_eq_zero hm)).symm
    _ ≤ now / W * W := floor_mono W m now h

lemma div_lt_of_lt_floor (W t a : Nat) (hW : 0 < W) (h : t < a / W * W) :
    t / W < a / W :=
  (Nat.div_lt_iff_lt_mul hW).2 h

lemma div_lt_of_lt_aligned (W t m : Nat) (hW : 0 < W) (hm : m % W = 0)
    (h : t < m) : t / W < m / W := by
  refine (Nat.div_lt_iff_lt_mul hW).2 ?_
  calc t < m := h
    _ = m / W * W := (Nat.div_mul_cancel (Nat.dvd_of_mod_eq_zero hm)).symm

/-- A time `t` below an aligned reset `m` but within one window of it lies
in the window indexed `m / W - 1`. -/
lemma window_of_grant (W t m : Nat) (hW : 0 < W) (hm : m % W = 0)
    (hub : m ≤ t / W * W + W) (hlt : t < m) : t / W = m / W - 1 ∧ 0 < m / W := by
  have h1 : t / W < m / W := div_lt_of_lt_aligned W t m hW hm hlt
  have h2 : m / W ≤ t / W + 1 := by
    have h3 : m / W ≤ (t / W * W + W) / W := Nat.div_le_div_right hub
    rwa [boundary_div W hW t] at h3
  revert h1 h2
  generalize t / W = x
  generalize m / W = y
  intro h1 h2
  omega

lemma wcount_append (W : Nat) (ts : List Nat) (t k : Nat) :
    wcount W (ts ++ [t]) k = wcount W ts k + (if t / W = k then 1 else 0) := by
  unfold wcount
  rw [List.countP_append]
  by_cases h : t / W = k
  · simp [List.countP, List.countP.go, h]
  · have hb : (t / W == k) = false := beq_eq_false_iff_ne.mpr h
    simp [List.countP, List.countP.go, hb, h]

lemma wcount_nil (W k : Nat) : wcount W [] k = 0 := rfl

lemma wcount_eq_zero (W : Nat) (ts : List Nat) (k : Nat)
    (h : ∀ t ∈ ts, t / W ≠ k) : wcount W ts k = 0 := by
  unfold wcount
  rw [List.countP_eq_zero]
  intro t ht
  simpa using h t ht

/-! Facts about `rollWin`. -/

lemma rollWin_none (W c now : Nat) : rollWin W c none now = (0, now / W * W + W) := rfl

lemma rollWin_keep (W c m now : Nat) (h : now < m) :
    rollWin W c (some m) now = (c, m) := by
  simp [rollWin, h]

lemma rollWin_due (W c m now : Nat) (h : m ≤ now) :
    rollWin W c (some m) now = (0, now / W * W + W) := by
  simp [rollWin, Nat.not_lt.mpr h]

/-- The reset step preserves the window invariant (re-read at the later
time `now`) and leaves the new reset time strictly in the future. -/
lemma winInv_rollWin (W q c : Nat) (r : Option Nat) (clock now : Nat) (ts : List Nat)
    (hW : 0 < W) (h : WinInv W q c r clock ts) (hcl : clock ≤ now) :
    WinInv W q (rollWin W c r now).1 (some (rollWin W c r now).2) now ts ∧
    now < (rollWin W c r now).2 := by
  cases r with
  | none =>
    obtain ⟨hc0, hts⟩ := h
    subst hts
    rw [rollWin_none]
    refine ⟨⟨boundary_mod W now, ?_, le_refl _, by simp, by simp [hc0, wcount_nil], ?_⟩, ?_⟩
    · exact Nat.lt_of_le_of_lt (Nat.zero_le now) (lt_boundary W hW now)
    · intro k; simp [wcount_nil]
    · exact lt_boundary W hW now
  | some m =>
    obtain ⟨hmod, hpos, hub, hts, hcnt, hall⟩ := h
    by_cases hnm : now < m
    · rw [rollWin_keep W c m now hnm]
      have hub2 : m ≤ now / W * W + W :=
        le_trans hub (Nat.add_le_add_right (floor_mono W clock now hcl) W)
      exact ⟨⟨hmod, hpos, hub2, hts, hcnt, hall⟩, hnm⟩
    · have hmn : m ≤ now := Nat.not_lt.1 hnm
      rw [rollWin_due W c m now hmn]
      have hfl : m ≤ now / W * W := aligned_le_floor W m now hmod hmn
      refine ⟨⟨boundary_mod W now, ?_, le_refl _, ?_, ?_, hall⟩, lt_boundary W hW now⟩
      · exact Nat.lt_of_le_of_lt (Nat.zero_le now) (lt_boundary W hW now)
      · intro t ht
        exact Nat.lt_of_lt_of_le (hts t ht) (le_trans hfl (Nat.le_add_right _ _))
      · rw [boundary_div W hW now, Nat.add_sub_cancel]
        refine (wcount_eq_zero W ts (now / W) ?_).symm
        intro t ht
        have h1 : t < now / W * W := Nat.lt_of_lt_of_le (hts t ht) hfl
        exact Nat.ne_of_lt (div_lt_of_lt_floor W t now hW h1)

/-- The window invariant is stable under advancing the clock. -/
lemma winInv_mono (W q c : Nat) (r : Option Nat) (clock clock' : Nat) (ts : List Nat)
    (h : WinInv W q c r clock ts) (hcl : clock ≤ clock') :
    WinInv W q c r clock' ts := by
  cases r with
  | none => exact h
  | some m =>
    obtain ⟨hmod, hpos, hub, hts, hcnt, hall⟩ := h
    exact ⟨hmod, hpos,
      le_trans hub (Nat.add_le_add_right (floor_mono W clock clock' hcl) W),
      hts, hcnt, hall⟩

/-- Recording a granted success at time `t` (strictly before the reset
time, with the counter below the quota) preserves the invariant. -/
lemma winInv_append (W q c m : Nat) (t clock' : Nat) (ts : List Nat)
    (hW : 0 < W) (h : WinInv W q c (some m) t ts) (hlt : t < m) (hcq : c < q)
    (hcl : t ≤ clock') :
    WinInv W q (c + 1) (some m) clock' (ts ++ [t]) := by
  obtain ⟨hmod, hpos, hub, hts, hcnt, hall⟩ := h
  obtain ⟨hwin, hmdiv⟩ := window_of_grant W t m hW hmod hub hlt
  refine ⟨hmod, hpos,
    le_trans hub (Nat.add_le_add_right (floor_mono W t clock' hcl) W), ?_, ?_, ?_⟩
  · intro x hx
    rcases List.mem_append.1 hx with hx | hx
    · exact hts x hx
    · rw [List.mem_singleton.1 hx]; exact hlt
  · rw [wcount_append, hwin, if_pos rfl, hcnt]
  · intro k
    rw [wcount_append]
    by_cases hk : t / W = k
    · rw [if_pos hk, ← hk, hwin, ← hcnt]; omega
    · rw [if_neg hk]; simpa using hall k

/-- The counter never exceeds the quota. -/
lemma winInv_count_le (W q c : Nat) (r : Option Nat) (clock : Nat) (ts : List Nat)
    (h : WinInv W q c r clock ts) : c ≤ q := by
  cases r with
  | none => exact h.1 ▸ Nat.zero_le q
  | some m =>
    obtain ⟨_, _, _, _, hcnt, hall⟩ := h
    exact hcnt ▸ hall (m / W - 1)

/-- Every calendar window holds at most `q` grants. -/
lemma winInv_bound_all (W q c : Nat) (r : Option Nat) (clock : Nat) (ts : List Nat)
    (h : WinInv W q c r clock ts) : ∀ k, wcount W ts k ≤ q := by
  cases r with
  | none => intro k; rw [h.2, wcount_nil]; exact Nat.zero_le q
  | some m => exact h.2.2.2.2.2

/-! ## Tracker-level invariant through the admission check. -/

@[simp] lemma resetDay_follows_this_minute (tr : RateLimitTracker) (now : Nat) :
    (resetDay tr now).follows_this_minute = tr.follows_this_minute := rfl

@[simp] lemma resetDay_minute_reset_time (tr : RateLimitTracker) (now : Nat) :
    (resetDay tr now).minute_reset_time = tr.minute_reset_time := rfl

@[simp] lemma resetDay_last_follow_time (tr : RateLimitTracker) (now : Nat) :
    (resetDay tr now).last_follow_time = tr.last_follow_time := rfl

@[simp] lemma resetMinute_follows_today (tr : RateLimitTracker) (now : Nat) :
    (resetMinute tr now).follows_today = tr.follows_today := rfl

@[simp] lemma resetMinute_day_reset_time (tr : RateLimitTracker) (now : Nat) :
    (resetMinute tr now).day_reset_time = tr.day_reset_time := rfl

@[simp] lemma resetMinute_last_follow_time (tr : RateLimitTracker) (now : Nat) :
    (resetMinute tr now).last_follow_time = tr.last_follow_time := rfl

/-- Both window invariants of the tracker, at a given clock, over the
grant times recorded so far. -/
def TrInv (cfg : FollowConfig) (tr : RateLimitTracker) (clock : Nat)
    (ts : List Nat) : Prop :=
  WinInv 60 cfg.follows_per_minute tr.follows_this_minute tr.minute_reset_time clock ts ∧
  WinInv 86400 cfg.follows_per_day tr.follows_today tr.day_reset_time clock ts

lemma TrInv_mono (cfg : FollowConfig) (tr : RateLimitTracker) (c c' : Nat)
    (ts : List Nat) (h : TrInv cfg tr c ts) (hc : c ≤ c') : TrInv cfg tr c' ts :=
  ⟨winInv_mono _ _ _ _ _ _ _ h.1 hc, winInv_mono _ _ _ _ _ _ _ h.2 hc⟩

/-- The two reset steps at the head of `_check_rate_limits` preserve the
invariant, leave both reset times set and strictly in the future, and do
not touch `last_follow_time`. -/
lemma resetWindows_spec (cfg : FollowConfig) (tr : RateLimitTracker) (now : Nat)
    (ts : List Nat) (h : TrInv cfg tr now ts) :
    TrInv cfg (resetWindows tr now) now ts ∧
    (∃ m, (resetWindows tr now).minute_reset_time = some m ∧ now < m) ∧
    (∃ d, (resetWindows tr now).day_reset_time = some d ∧ now < d) ∧
    (resetWindows tr now).last_follow_time = tr.last_follow_time := by
  obtain ⟨hMin, hDay⟩ := h
  have hD := winInv_rollWin 86400 cfg.follows_per_day tr.follows_today
    tr.day_reset_time now now ts (by norm_num) hDay (le_refl now)
  have hM := winInv_rollWin 60 cfg.follows_per_minute tr.follows_this_minute
    tr.minute_reset_time now now ts (by norm_num) hMin (le_refl now)
  exact ⟨⟨hM.1, hD.1⟩, ⟨_, rfl, hM.2⟩, ⟨_, rfl, hD.2⟩, rfl⟩

lemma checkRateLimits_succ (cfg : FollowConfig) (fuel : Nat)
    (tr : RateLimitTracker) (now : Nat) :
    checkRateLimits cfg (fuel + 1) tr now =
      (if cfg.follows_per_day ≤ (resetWindows tr now).follows_today then
        some (false, resetWindows tr now, now)
      else if cfg.follows_per_minute ≤ (resetWindows tr now).follows_this_minute then
        match (resetWindows tr now).minute_reset_time with
        | some m => checkRateLimits cfg fuel (resetWindows tr now) (now + (m - now) + 1)
        | none => none
      else some (true, resetWindows tr now, now)) := rfl

/-- Specification of `_check_rate_limits`: the clock only advances, the
invariant is preserved, `last_follow_time` is untouched, and a granted
admission implies both counters are strictly below their quotas with both
reset times strictly in the future. -/
lemma check_spec (cfg : FollowConfig) (ts : List Nat) :
    ∀ (fuel : Nat) (tr : RateLimitTracker) (now : Nat) (adm : Bool)
      (tr' : RateLimitTracker) (now' : Nat),
      TrInv cfg tr now ts →
      checkRateLimits cfg fuel tr now = some (adm, tr', now') →
      now ≤ now' ∧ TrInv cfg tr' now' ts ∧
      tr'.last_follow_time = tr.last_follow_time ∧
      (adm = true →
        tr'.follows_this_minute < cfg.follows_per_minute ∧
        tr'.follows_today < cfg.follows_per_day ∧
        (∃ m, tr'.minute_reset_time = some m ∧ now' < m) ∧
        (∃ d, tr'.day_reset_time = some d ∧ now' < d)) := by
  intro fuel
  induction fuel with
  | zero =>
    intro tr now adm tr' now' _ hEq
    simp [checkRateLimits] at hEq
  | succ n ih =>
    intro tr now adm tr' now' hInv hEq
    obtain ⟨hRInv, ⟨m, hm, hnm⟩, ⟨d, hd, hnd⟩, hLast⟩ := resetWindows_spec cfg tr now ts hInv
    rw [checkRateLimits_succ] at hEq
    split at hEq
    · simp only [Option.some.injEq, Prod.mk.injEq] at hEq
      obtain ⟨ha, hb, hc⟩ := hEq
      subst ha; subst hb; subst hc
      refine ⟨le_refl _, hRInv, hLast, ?_⟩
      intro hAdm; exact absurd hAdm (by simp)
    · next h1 =>
      split at hEq
      · split at hEq
        · next m' hm' =>
          have hmono : now ≤ now + (m' - now) + 1 := by omega
          have hInv2 : TrInv cfg (resetWindows tr now) (now + (m' - now) + 1) ts :=
            TrInv_mono cfg _ now _ ts hRInv hmono
          obtain ⟨hle, hI, hL, hG⟩ :=
            ih (resetWindows tr now) (now + (m' - now) + 1) adm tr' now' hInv2 hEq
          exact ⟨le_trans hmono hle, hI, hL.trans hLast, hG⟩
        · simp at hEq
      · next h2 =>
        simp only [Option.some.injEq, Prod.mk.injEq] at hEq
        obtain ⟨ha, hb, hc⟩ := hEq
        subst ha; subst hb; subst hc
        refine ⟨le_refl _, hRInv, hLast, ?_⟩
        intro _
        exact ⟨Nat.not_le.1 h2, Nat.not_le.1 h1, ⟨m, hm, hnm⟩, ⟨d, hd, hnd⟩⟩

lemma waitBetween_ge (cfg : FollowConfig) (tr : RateLimitTracker) (now j : Nat) :
    now ≤ waitBetweenFollows cfg tr now j := by
  unfold waitBetweenFollows
  cases tr.last_follow_time with
  | none => exact le_refl now
  | some last =>
    show now ≤ if now - last < cfg.delay_between_follows + j then
      now + (cfg.delay_between_follows + j - (now - last)) else now
    by_cases hc : now - last < cfg.delay_between_follows + j
    · rw [if_pos hc]; omega
    · rw [if_neg hc]

lemma waitBetween_spacing (cfg : FollowConfig) (tr : RateLimitTracker)
    (now j t : Nat) (h : tr.last_follow_time = some t) (hle : t ≤ now) :
    t + cfg.delay_between_follows + j ≤ waitBetweenFollows cfg tr now j := by
  unfold waitBetweenFollows
  rw [h]
  show t + cfg.delay_between_follows + j ≤
    if now - t < cfg.delay_between_follows + j then
      now + (cfg.delay_between_follows + j - (now - t)) else now
  by_cases hc : now - t < cfg.delay_between_follows + j
  · rw [if_pos hc]; omega
  · rw [if_neg hc]; omega

/-- Spacing invariant: the recorded success times form a chain whose steps
are at least `delay_between_follows`, `last_follow_time` is exactly the
time of the most recent success (unset iff there was none), and it never
lies in the future of the clock. -/
def SpacingInv (cfg : FollowConfig) (last : Option Nat) (clock : Nat)
    (log : List SuccessEvent) : Prop :=
  List.Chain' (fun a b => a + cfg.delay_between_follows ≤ b) (recordTimes log) ∧
  match last with
  | none => log = []
  | some t => (recordTimes log).getLast? = some t ∧ t ≤ clock

lemma spacingInv_mono (cfg : FollowConfig) (last : Option Nat) (c c' : Nat)
    (log : List SuccessEvent) (h : SpacingInv cfg last c log) (hc : c ≤ c') :
    SpacingInv cfg last c' log := by
  cases last with
  | none => exact h
  | some t => exact ⟨h.1, h.2.1, le_trans h.2.2 hc⟩

/-- Appending a success whose record time respects the spacing bound
relative to the previous `last_follow_time`. -/
lemma spacingInv_append (cfg : FollowConfig) (last : Option Nat) (c : Nat)
    (log : List SuccessEvent) (g t3 : Nat)
    (h : SpacingInv cfg last c log)
    (hgap : ∀ t, last = some t → t + cfg.delay_between_follows ≤ t3) :
    SpacingInv cfg (some t3) t3 (log ++ [⟨g, t3⟩]) := by
  have hrt : recordTimes (log ++ [⟨g, t3⟩]) = recordTimes log ++ [t3] := by
    simp [recordTimes]
  cases last with
  | none =>
    obtain ⟨-, hnil⟩ := h
    subst hnil
    refine ⟨?_, ?_, le_refl t3⟩
    · rw [hrt]; simp [recordTimes]
    · rw [hrt]; simp [recordTimes]
  | some t =>
    obtain ⟨hchain, hlastEq, -⟩ := h
    refine ⟨?_, ?_, le_refl t3⟩
    · rw [hrt, List.chain'_append]
      refine ⟨hchain, List.chain'_singleton t3, ?_⟩
      intro x hx y hy
      rw [hlastEq] at hx
      simp at hx hy
      subst hx; subst hy
      exact hgap t rfl
    · rw [hrt, List.getLast?_concat]

/-- Combined invariant over the scheduler state. -/
def SchedInv (cfg : FollowConfig) (st : SchedState) (log : List SuccessEvent) : Prop :=
  TrInv cfg st.tracker st.clock (grantTimes log) ∧
  SpacingInv cfg st.tracker.last_follow_time st.clock log

lemma schedInv_init (cfg : FollowConfig) (c0 : Nat) :
    SchedInv cfg (initState c0) [] := by
  refine ⟨⟨⟨rfl, rfl⟩, ⟨rfl, rfl⟩⟩, List.chain'_nil, rfl⟩

lemma followUser_inv (cfg : FollowConfig) (st : SchedState) (env : AttemptEnv)
    (uid : Nat) (log : List SuccessEvent) (r : FollowResult)
    (hI : SchedInv cfg st log)
    (he : followUser cfg st env uid = some r) :
    SchedInv cfg r.state (log ++ r.event.toList) ∧ st.clock ≤ r.state.clock := by
  obtain ⟨hT, hSp⟩ := hI
  have hT0 : TrInv cfg st.tracker (st.clock + env.preDelay) (grantTimes log) :=
    TrInv_mono cfg st.tracker st.clock _ (grantTimes log) hT (Nat.le_add_right _ _)
  have hSp0 : SpacingInv cfg st.tracker.last_follow_time (st.clock + env.preDelay) log :=
    spacingInv_mono cfg _ st.clock _ log hSp (Nat.le_add_right _ _)
  unfold followUser at he
  split at he
  · exact (Option.noConfusion he)
  · next tr1 now1 hc =>
    obtain ⟨hle, hT1, hL1, -⟩ :=
      check_spec cfg (grantTimes log) 2 st.tracker (st.clock + env.preDelay) false tr1 now1 hT0 hc
    obtain rfl := Option.some.inj he
    refine ⟨⟨?_, ?_⟩, ?_⟩
    · simpa using hT1
    · show SpacingInv cfg tr1.last_follow_time now1 (log ++ Option.toList none)
      rw [hL1]
      simpa using spacingInv_mono cfg _ _ now1 log hSp0 hle
    · exact le_trans (Nat.le_add_right _ _) hle
  · next tr1 now1 hc =>
    obtain ⟨hle, hT1, hL1, hG⟩ :=
      check_spec cfg (grantTimes log) 2 st.tracker (st.clock + env.preDelay) true tr1 now1 hT0 hc
    obtain ⟨hfm, hfd, ⟨m, hm, hn1m⟩, ⟨d, hd, hn1d⟩⟩ := hG rfl
    have h12 : now1 ≤ waitBetweenFollows cfg tr1 now1 env.jitter :=
      waitBetween_ge cfg tr1 now1 env.jitter
    have h13 : now1 ≤ waitBetweenFollows cfg tr1 now1 env.jitter + env.actionTime :=
      le_trans h12 (Nat.le_add_right _ _)
    have h03 : st.clock ≤ waitBetweenFollows cfg tr1 now1 env.jitter + env.actionTime :=
      le_trans (le_trans (Nat.le_add_right _ _) hle) h13
    split at he
    · -- env.actionOk = true
      obtain rfl := Option.some.inj he
      dsimp only [Option.toList]
      have hgt : grantTimes (log ++ [⟨now1, waitBetweenFollows cfg tr1 now1 env.jitter + env.actionTime⟩])
          = grantTimes log ++ [now1] := by simp [grantTimes]
      refine ⟨⟨⟨?_, ?_⟩, ?_⟩, h03⟩
      · rw [hm, hgt]
        exact winInv_append 60 cfg.follows_per_minute tr1.follows_this_minute m now1 _
          (grantTimes log) (by norm_num) (by rw [← hm]; exact hT1.1) hn1m hfm h13
      · rw [hd, hgt]
        exact winInv_append 86400 cfg.follows_per_day tr1.follows_today d now1 _
          (grantTimes log) (by norm_num) (by rw [← hd]; exact hT1.2) hn1d hfd h13
      · refine spacingInv_append cfg st.tracker.last_follow_time (st.clock + env.preDelay)
          log now1 _ hSp0 ?_
        intro t ht
        have htle : t ≤ st.clock + env.preDelay := by
          have h4 := hSp0
          rw [ht] at h4
          exact h4.2.2
        have hsp := waitBetween_spacing cfg tr1 now1 env.jitter t (by rw [hL1]; exact ht)
          (le_trans htle hle)
        omega
    · -- env.actionOk = false
      obtain rfl := Option.some.inj he
      refine ⟨⟨?_, ?_⟩, h03⟩
      · simpa using TrInv_mono cfg tr1 now1 _ (grantTimes log) hT1 h13
      · show SpacingInv cfg tr1.last_follow_time _ (log ++ Option.toList none)
        rw [hL1]
        simpa using spacingInv_mono cfg _ _ _ log hSp0 (le_trans hle h13)

lemma runFollows_inv (cfg : FollowConfig) :
    ∀ (entries : List (Nat × AttemptEnv)) (st : SchedState) (log : List SuccessEvent)
      (st' : SchedState) (tail : List SuccessEvent),
      SchedInv cfg st log → runFollows cfg st entries = some (st', tail) →
      SchedInv cfg st' (log ++ tail) := by
  intro entries
  induction entries with
  | nil =>
    intro st log st' tail hI hE
    simp only [runFollows, Option.some.injEq, Prod.mk.injEq] at hE
    obtain ⟨rfl, rfl⟩ := hE
    simpa using hI
  | cons p rest ih =>
    obtain ⟨uid, env⟩ := p
    intro st log st' tail hI hE
    simp only [runFollows] at hE
    split at hE
    · exact (Option.noConfusion hE)
    · next r hr =>
      split at hE
      · exact (Option.noConfusion hE)
      · next st1 log1 hrun =>
        simp only [Option.some.injEq, Prod.mk.injEq] at hE
        obtain ⟨rfl, rfl⟩ := hE
        obtain ⟨hI1, -⟩ := followUser_inv cfg st env uid log r hI hr
        have h2 := ih r.state (log ++ r.event.toList) st1 log1 hI1 hrun
        rwa [List.append_assoc] at h2

/-! ## Field computations of `resetWindows`. -/

lemma resetWindows_follows_this_minute (tr : RateLimitTracker) (now : Nat) :
    (resetWindows tr now).follows_this_minute =
      (rollWin 60 tr.follows_this_minute tr.minute_reset_time now).1 := rfl

lemma resetWindows_minute_reset (tr : RateLimitTracker) (now : Nat) :
    (resetWindows tr now).minute_reset_time =
      some (rollWin 60 tr.follows_this_minute tr.minute_reset_time now).2 := rfl

/-! ## Claim theorems. -/

/-- C10 (confirmed): with sleeps modelled as clock advances, whenever
`follows_per_minute ≥ 1` the wait-and-re-check recursion of
`_check_rate_limits` terminates within one recursive call (fuel 2): after
sleeping to `minute_reset_time + 1` the re-check resets the minute counter
and either grants admission or denies on the daily cap. -/
theorem check_rate_limits_terminates (cfg : FollowConfig) (tr : RateLimitTracker)
    (now : Nat) (h : 1 ≤ cfg.follows_per_minute) :
    (checkRateLimits cfg 2 tr now).isSome = true := by
  rw [show (2 : Nat) = 1 + 1 from rfl, checkRateLimits_succ]
  by_cases h1 : cfg.follows_per_day ≤ (resetWindows tr now).follows_today
  · rw [if_pos h1]; rfl
  · rw [if_neg h1]
    by_cases h2 : cfg.follows_per_minute ≤ (resetWindows tr now).follows_this_minute
    · rw [if_pos h2]
      obtain ⟨X, hX⟩ : ∃ X, (resetWindows tr now).minute_reset_time = some X := ⟨_, rfl⟩
      rw [hX]
      show (checkRateLimits cfg 1 (resetWindows tr now) (now + (X - now) + 1)).isSome = true
      rw [show (1 : Nat) = 0 + 1 from rfl, checkRateLimits_succ]
      by_cases h3 : cfg.follows_per_day ≤
          (resetWindows (resetWindows tr now) (now + (X - now) + 1)).follows_today
      · rw [if_pos h3]; rfl
      · rw [if_neg h3]
        have hdue : X ≤ now + (X - now) + 1 := by omega
        have hzero : (resetWindows (resetWindows tr now)
            (now + (X - now) + 1)).follows_this_minute = 0 := by
          rw [resetWindows_follows_this_minute, hX, rollWin_due 60 _ X _ hdue]
        rw [if_neg (by rw [hzero]; omega)]
        rfl
    · rw [if_neg h2]; rfl

/-- C10 witness: the bound applies to the default configuration on a
fresh tracker. -/
theorem check_rate_limits_terminates_witness :
    (checkRateLimits ⟨15, 400, 4, 3, 10⟩ 2 initTracker 0).isSome = true :=
  check_rate_limits_terminates ⟨15, 400, 4, 3, 10⟩ initTracker 0 (by norm_num)

/-- C7 counterexample: at `now = 30` with an unset window the check sets
`minute_reset_time` to 60 (the start of the next calendar minute), not to
`now + 60 = 90` as the claim states. -/
theorem minute_reset_not_now_plus_sixty :
    ¬ ((resetWindows initTracker 30).minute_reset_time = some (30 + 60)) := by
  decide

/-- C7 (amended): on every admission check, whenever `minute_reset_time`
is unset or the current time has reached it, the reset step zeroes
`follows_this_minute` and sets `minute_reset_time` to the start of the
next calendar minute, `now / 60 * 60 + 60` (not `now + 60`). -/
theorem minute_reset_next_calendar_minute (tr : RateLimitTracker) (now : Nat)
    (h : tr.minute_reset_time = none ∨ ∃ m, tr.minute_reset_time = some m ∧ m ≤ now) :
    (resetWindows tr now).follows_this_minute = 0 ∧
    (resetWindows tr now).minute_reset_time = some (now / 60 * 60 + 60) := by
  rcases h with h | ⟨m, hm, hle⟩
  · rw [resetWindows_follows_this_minute, resetWindows_minute_reset, h, rollWin_none]
    exact ⟨rfl, rfl⟩
  · rw [resetWindows_follows_this_minute, resetWindows_minute_reset, hm,
      rollWin_due 60 _ m now hle]
    exact ⟨rfl, rfl⟩

/-- C7 witness: the amended rule evaluated at a fresh tracker and
`now = 30`. -/
theorem minute_reset_next_calendar_minute_witness :
    (resetWindows initTracker 30).follows_this_minute = 0 ∧
    (resetWindows initTracker 30).minute_reset_time = some (30 / 60 * 60 + 60) :=
  minute_reset_next_calendar_minute initTracker 30 (Or.inl rfl)

/-! ## Concrete executions used by counterexamples and witnesses. -/

/-- The source's default configuration (15 per minute, 400 per day, 4 s
delay, retry 3 / 10 s). -/
def cfgDefault : FollowConfig := ⟨15, 400, 4, 3, 10⟩

/-- Default limits with a zero inter-follow delay. -/
def cfgZeroDelay : FollowConfig := ⟨15, 400, 0, 3, 10⟩

/-- One follow per minute, zero delay. -/
def cfgOnePerMinute : FollowConfig := ⟨1, 400, 0, 3, 10⟩

/-- Three follows per day, zero delay. -/
def cfgThreePerDay : FollowConfig := ⟨15, 3, 0, 3, 10⟩

/-- Tight quotas used by the witnesses. -/
def cfgTiny : FollowConfig := ⟨1, 2, 3, 3, 10⟩

/-- A performer that always succeeds, instantly, with no jitter. -/
def alwaysOk : Nat → AttemptEnv := fun _ => ⟨0, 0, 0, true⟩

/-- A performer that always fails, instantly. -/
def alwaysFail : Nat → AttemptEnv := fun _ => ⟨0, 0, 0, false⟩

/-- Fails on the first invocation, succeeds afterwards. -/
def envFailFirst : Nat → AttemptEnv := fun n => if n = 0 then ⟨0, 0, 0, false⟩ else ⟨0, 0, 0, true⟩

/-- Users `1, …, n`. -/
def usersN (n : Nat) : List Nat := (List.range n).map (fun i => i + 1)

/-- Two attempts whose admissions land at `t = 59` and `t = 60`. -/
def entriesC1 : List (Nat × AttemptEnv) := [(1, ⟨59, 0, 0, true⟩), (2, ⟨1, 0, 0, true⟩)]

/-- One immediately successful attempt. -/
def entriesW : List (Nat × AttemptEnv) := [(1, ⟨0, 0, 0, true⟩)]

/-- The state `runFollows cfgTiny (initState 0) entriesW` ends in. -/
def stateW : SchedState :=
  { tracker := { follows_today := 1, follows_this_minute := 1, last_follow_time := some 0,
                 minute_reset_time := some 60, day_reset_time := some 86400 },
    clock := 0, followedUsers := [1] }

def logW : List SuccessEvent := [⟨0, 0⟩]

/-- Number of admissions falling in the rolling 60-second window
starting at `s`. -/
def rollingCount (ts : List Nat) (s : Nat) : Nat :=
  (ts.filter (fun t => decide (s ≤ t) && decide (t < s + 60))).length

/-- C1 counterexample: with `follows_per_minute = 1` the scheduler admits
two successful follows at `t = 59` and `t = 60` — both inside the rolling
60-second window `[59, 119)` — because the counter resets at the calendar
minute boundary; so the rolling-window bound of the claim is violated. -/
theorem rolling_minute_window_violated :
    (runFollows cfgOnePerMinute (initState 0) entriesC1).map
        (fun p => (grantTimes p.2, rollingCount (grantTimes p.2) 59)) = some ([59, 60], 2) ∧
    ¬ (2 ≤ cfgOnePerMinute.follows_per_minute) := by
  decide

/-- C1 (amended): for every execution of the scheduler from a fresh
tracker, the number of admitted successful follows whose admission time
falls in any single calendar minute (`[60k, 60k + 60)`) is at most
`follows_per_minute`, and in any single calendar day at most
`follows_per_day`.  The rolling-window version of the bound is false
(see the counterexample); the windows the counters enforce are the
calendar windows of the reset rule. -/
theorem successes_bounded_per_calendar_window (cfg : FollowConfig) (c0 : Nat)
    (entries : List (Nat × AttemptEnv)) (st : SchedState) (log : List SuccessEvent)
    (k : Nat) (h : runFollows cfg (initState c0) entries = some (st, log)) :
    wcount 60 (grantTimes log) k ≤ cfg.follows_per_minute ∧
    wcount 86400 (grantTimes log) k ≤ cfg.follows_per_day := by
  have hI := runFollows_inv cfg entries (initState c0) [] st log (schedInv_init cfg c0) h
  rw [List.nil_append] at hI
  exact ⟨winInv_bound_all 60 _ _ _ _ _ hI.1.1 k, winInv_bound_all 86400 _ _ _ _ _ hI.1.2 k⟩

/-- C1 witness: the calendar-window bound evaluated on a concrete run. -/
theorem successes_bounded_per_calendar_window_witness :
    wcount 60 (grantTimes logW) 0 ≤ cfgTiny.follows_per_minute ∧
    wcount 86400 (grantTimes logW) 0 ≤ cfgTiny.follows_per_day :=
  successes_bounded_per_calendar_window cfgTiny 0 entriesW stateW logW 0 (by decide)

/-- C2 (confirmed): after any sequence of `follow_user` calls from a fresh
tracker, `follows_this_minute ≤ follows_per_minute` and
`follows_today ≤ follows_per_day`; since every reachable state is the end
of such a sequence, no state violating either bound persists beyond a
single attempt. -/
theorem tracker_counters_never_exceed_quotas (cfg : FollowConfig) (c0 : Nat)
    (entries : List (Nat × AttemptEnv)) (st : SchedState) (log : List SuccessEvent)
    (h : runFollows cfg (initState c0) entries = some (st, log)) :
    st.tracker.follows_this_minute ≤ cfg.follows_per_minute ∧
    st.tracker.follows_today ≤ cfg.follows_per_day := by
  have hI := runFollows_inv cfg entries (initState c0) [] st log (schedInv_init cfg c0) h
  rw [List.nil_append] at hI
  exact ⟨winInv_count_le 60 _ _ _ _ _ hI.1.1, winInv_count_le 86400 _ _ _ _ _ hI.1.2⟩

/-- C2 witness. -/
theorem tracker_counters_never_exceed_quotas_witness :
    stateW.tracker.follows_this_minute ≤ cfgTiny.follows_per_minute ∧
    stateW.tracker.follows_today ≤ cfgTiny.follows_per_day :=
  tracker_counters_never_exceed_quotas cfgTiny 0 entriesW stateW logW (by decide)

/-- C6 (confirmed): in any execution, the `last_follow_time` stamps of
consecutive successful follows are at least `delay_between_follows`
apart — `_wait_between_follows` sleeps `target_delay - elapsed` whenever
`elapsed < target_delay = delay + jitter`, and the sampled jitter (an
arbitrary natural here) only ever increases the gap. -/
theorem consecutive_success_gap_ge_min_delay (cfg : FollowConfig) (c0 : Nat)
    (entries : List (Nat × AttemptEnv)) (st : SchedState) (log : List SuccessEvent)
    (h : runFollows cfg (initState c0) entries = some (st, log)) :
    List.Chain' (fun a b => a + cfg.delay_between_follows ≤ b) (recordTimes log) := by
  have hI := runFollows_inv cfg entries (initState c0) [] st log (schedInv_init cfg c0) h
  rw [List.nil_append] at hI
  exact hI.2.1

/-- C6 witness. -/
theorem consecutive_success_gap_ge_min_delay_witness :
    List.Chain' (fun a b => a + cfgTiny.delay_between_follows ≤ b) (recordTimes logW) :=
  consecutive_success_gap_ge_min_delay cfgTiny 0 entriesW stateW logW (by decide)

/-! ## The retry configuration is inert. -/

lemma checkRateLimits_retry_irrel (c1 c2 : FollowConfig)
    (hm : c1.follows_per_minute = c2.follows_per_minute)
    (hd : c1.follows_per_day = c2.follows_per_day) :
    ∀ (fuel : Nat) (tr : RateLimitTracker) (now : Nat),
      checkRateLimits c1 fuel tr now = checkRateLimits c2 fuel tr now := by
  intro fuel
  induction fuel with
  | zero => intro tr now; rfl
  | succ n ih =>
    intro tr now
    rw [checkRateLimits_succ, checkRateLimits_succ, hm, hd]
    by_cases h1 : c2.follows_per_day ≤ (resetWindows tr now).follows_today
    · rw [if_pos h1, if_pos h1]
    · rw [if_neg h1, if_neg h1]
      by_cases h2 : c2.follows_per_minute ≤ (resetWindows tr now).follows_this_minute
      · rw [if_pos h2, if_pos h2]
        exact ih (resetWindows tr now) _
      · rw [if_neg h2, if_neg h2]

lemma waitBetween_cfg_congr (c1 c2 : FollowConfig)
    (hdl : c1.delay_between_follows = c2.delay_between_follows)
    (tr : RateLimitTracker) (now j : Nat) :
    waitBetweenFollows c1 tr now j = waitBetweenFollows c2 tr now j := by
  unfold waitBetweenFollows
  rw [hdl]

lemma followUser_retry_irrel (c1 c2 : FollowConfig)
    (hm : c1.follows_per_minute = c2.follows_per_minute)
    (hd : c1.follows_per_day = c2.follows_per_day)
    (hdl : c1.delay_between_follows = c2.delay_between_follows)
    (st : SchedState) (env : AttemptEnv) (uid : Nat) :
    followUser c1 st env uid = followUser c2 st env uid := by
  unfold followUser
  rw [checkRateLimits_retry_irrel c1 c2 hm hd 2 st.tracker (st.clock + env.preDelay)]
  cases checkRateLimits c2 2 st.tracker (st.clock + env.preDelay) with
  | none => rfl
  | some res =>
    obtain ⟨adm, tr1, now1⟩ := res
    cases adm with
    | false => rfl
    | true =>
      dsimp only
      rw [waitBetween_cfg_congr c1 c2 hdl tr1 now1 env.jitter]

lemma followLoopCopy_retry_irrel (c1 c2 : FollowConfig)
    (hm : c1.follows_per_minute = c2.follows_per_minute)
    (hd : c1.follows_per_day = c2.follows_per_day)
    (hdl : c1.delay_between_follows = c2.delay_between_follows)
    (envf : Nat → AttemptEnv) :
    ∀ (users : List Nat) (bs : BatchState),
      followLoopCopy c1 envf users bs = followLoopCopy c2 envf users bs := by
  intro users
  induction users with
  | nil => intro bs; rfl
  | cons u rest ih =>
    intro bs
    unfold followLoopCopy
    by_cases hmem : u ∈ bs.sched.followedUsers
    · rw [if_pos hmem, if_pos hmem]
      exact ih bs
    · rw [if_neg hmem, if_neg hmem,
        followUser_retry_irrel c1 c2 hm hd hdl bs.sched (envf bs.calls) u]
      cases followUser c2 bs.sched (envf bs.calls) u with
      | none => rfl
      | some r => exact ih (batchStep bs u r)

lemma followLoopAlias_retry_irrel (c1 c2 : FollowConfig)
    (hm : c1.follows_per_minute = c2.follows_per_minute)
    (hd : c1.follows_per_day = c2.follows_per_day)
    (hdl : c1.delay_between_follows = c2.delay_between_follows)
    (envf : Nat → AttemptEnv) :
    ∀ (fuel i : Nat) (bs : BatchState),
      followLoopAlias c1 envf fuel i bs = followLoopAlias c2 envf fuel i bs := by
  intro fuel
  induction fuel with
  | zero => intro i bs; rfl
  | succ n ih =>
    intro i bs
    unfold followLoopAlias
    cases bs.usersToFollow.get? i with
    | none => rfl
    | some u =>
      dsimp only
      by_cases hmem : u ∈ bs.sched.followedUsers
      · rw [if_pos hmem, if_pos hmem]
        exact ih (i + 1) bs
      · rw [if_neg hmem, if_neg hmem,
          followUser_retry_irrel c1 c2 hm hd hdl bs.sched (envf bs.calls) u]
        cases followUser c2 bs.sched (envf bs.calls) u with
        | none => rfl
        | some r => exact ih (i + 1) (batchStep bs u r)

/-- C8 (amended): within a batch the follow action is invoked at most once
per consumed occurrence (there is no retry loop), and the loaded retry
values `max_attempts` and `delay_on_error` never influence the behaviour:
two configurations agreeing on the three rate-limit fields produce
literally identical batch runs whatever their retry fields are.  (The
claim's further part that every request is removed from the pending list
fails for occurrences skipped by the `followed_users` check — see the
counterexample.) -/
theorem retry_config_never_influences_batch (c1 c2 : FollowConfig)
    (hm : c1.follows_per_minute = c2.follows_per_minute)
    (hd : c1.follows_per_day = c2.follows_per_day)
    (hdl : c1.delay_between_follows = c2.delay_between_follows)
    (envf : Nat → AttemptEnv) (maxUsers : Option Nat) (sched : SchedState)
    (utf : List Nat) :
    followCollectedUsers c1 envf maxUsers sched utf =
    followCollectedUsers c2 envf maxUsers sched utf := by
  unfold followCollectedUsers
  by_cases hutf : utf = []
  · rw [if_pos hutf, if_pos hutf]
  · rw [if_neg hutf, if_neg hutf]
    cases maxUsers with
    | none =>
      dsimp only
      rw [followLoopAlias_retry_irrel c1 c2 hm hd hdl envf utf.length 0]
    | some k =>
      dsimp only
      rw [followLoopCopy_retry_irrel c1 c2 hm hd hdl envf (utf.take k)]

/-- C8 witness: the default configuration and one with absurd retry
settings run a concrete batch identically. -/
theorem retry_config_never_influences_batch_witness :
    followCollectedUsers ⟨15, 400, 4, 3, 10⟩ alwaysOk (some 2) (initState 0) [1, 2] =
    followCollectedUsers ⟨15, 400, 4, 99, 777⟩ alwaysOk (some 2) (initState 0) [1, 2] :=
  retry_config_never_influences_batch ⟨15, 400, 4, 3, 10⟩ ⟨15, 400, 4, 99, 777⟩
    rfl rfl rfl alwaysOk (some 2) (initState 0) [1, 2]

/-- C8 counterexample: with requests `[7, 7]`, `max_users = 2` and an
always-succeeding performer, the second occurrence is skipped by the
`followed_users` check and is NOT removed from the pending list — the
batch ends with `users_to_follow = [7] ≠ []`, refuting "every request is
marked processed (removed from the pending list)". -/
theorem dedup_skipped_requests_remain_pending :
    (followCollectedUsers cfgZeroDelay alwaysOk (some 2) (initState 0) [7, 7]).map
        (fun p => (p.1.usersToFollow, p.1.calls)) = some ([7], 1) ∧
    ([7] : List Nat) ≠ [] := by
  decide

/-- C3 (code bug): with `follow_collected_users()` at its default
`max_users=None`, `users_to_process` aliases `users_to_follow`, so the
`for` loop iterates over the very list the body removes from and skips
every other entry: running 50 always-failing requests attempts only 25,
yielding `failed = 25` (not 50) and leaving 25 entries pending — while
`actions_today` stays 0 as the claim says.  The accounting is visibly
broken: with 3 always-succeeding requests the returned `skipped` is -1. -/
theorem always_fail_batch_eval :
    (followCollectedUsers cfgDefault alwaysFail none (initState 0) (usersN 50)).map
        (fun p => (p.1.followed, p.1.failed, p.2, p.1.sched.tracker.follows_today,
          p.1.sched.tracker.follows_this_minute, p.1.usersToFollow.length))
      = some (0, 25, 0, 0, 0, 25) ∧
    (followCollectedUsers cfgDefault alwaysOk none (initState 0) (usersN 3)).map
        (fun p => p.2) = some (-1) := by
  decide

/-- C4 counterexample: with `per_day_quota = 3`, 10 requests and an
always-succeeding performer, the batch does NOT report
`(followed, failed, skipped) = (3, 0, 7)` as the claim demands — the 7
quota-denied requests are counted as failed, not skipped. -/
theorem daily_exhaustion_not_reported_skipped :
    ¬ ((followCollectedUsers cfgThreePerDay alwaysOk (some 10) (initState 0) (usersN 10)).map
        (fun p => (p.1.followed, p.1.failed, p.2)) = some (3, 0, 7)) := by
  decide

/-- C4 (amended): once `actions_today ≥ per_day_quota`, admission is
denied immediately with no waiting and the underlying action is not
invoked; but each remaining request is still passed through `follow_user`
and reported as FAILED, not skipped: with `per_day_quota = 3`, 10 requests
and an always-succeeding performer the batch returns `followed = 3`,
`failed = 7`, `skipped = 0`, with exactly 3 action invocations and the
clock never advancing (no wait was attempted for the denied 7). -/
theorem daily_exhaustion_reports_failed :
    (followCollectedUsers cfgThreePerDay alwaysOk (some 10) (initState 0) (usersN 10)).map
        (fun p => (p.1.followed, p.1.failed, p.2, p.1.invocations, p.1.sched.clock))
      = some (3, 7, 0, 3, 0) := by
  decide

/-- C5 counterexample: with `max_users = 1` and requests `[1, 2]` where
the first attempt fails, the batch stops after 1 call — it does not keep
attempting request 2 although 0 < 1 successes were reached and requests
remain, refuting "the limit bounds the number of successful actions". -/
theorem max_users_does_not_extend_attempts :
    (followCollectedUsers cfgZeroDelay envFailFirst (some 1) (initState 0) [1, 2]).map
        (fun p => (p.1.calls, p.1.followed, p.1.usersToFollow)) = some (1, 0, [2]) ∧
    (1 : Nat) ≠ 2 := by
  decide

/-- C5 (amended): `max_users` truncates the request list to its first `k`
elements — it caps processed requests (attempts), not successes; with an
always-succeeding performer, 100 requests and `max_users = 5`, exactly the
first 5 are attempted (5 calls, 5 invocations, 5 successes) and the other
95 stay untouched in the pending list. -/
theorem max_users_truncates_requests :
    (followCollectedUsers cfgZeroDelay alwaysOk (some 5) (initState 0) (usersN 100)).map
        (fun p => (p.1.followed, p.1.calls, p.1.invocations, p.1.usersToFollow.length))
      = some (5, 5, 5, 95) := by
  decide

/-- C9 counterexample: with requests `[5, 5]` (the same id twice),
`max_users = 2` and an always-succeeding performer, only the FIRST
occurrence is attempted (1 call); the second is skipped by the
`followed_users` membership check and reported in `skipped` — the
scheduler does deduplicate, refuting "attempts each occurrence". -/
theorem duplicate_occurrence_skipped_after_success :
    (followCollectedUsers cfgZeroDelay alwaysOk (some 2) (initState 0) [5, 5]).map
        (fun p => (p.1.calls, p.1.followed, p.2)) = some (1, 1, 1) ∧
    (1 : Nat) ≠ 2 := by
  decide

/-- C9 (amended): the batch loop skips any occurrence whose id is already
in `followed_users` (populated by successes, including earlier successes
of the same run), counting it as skipped; occurrences whose id has not
yet been followed successfully are each attempted — with an always-failing
performer both occurrences of a duplicated id are attempted. -/
theorem dedup_by_followed_users :
    (followCollectedUsers cfgZeroDelay alwaysOk (some 2) (initState 0) [5, 5]).map
        (fun p => (p.1.calls, p.1.followed, p.2)) = some (1, 1, 1) ∧
    (followCollectedUsers cfgZeroDelay alwaysFail (some 2) (initState 0) [5, 5]).map
        (fun p => (p.1.calls, p.1.failed, p.2)) = some (2, 2, 0) := by
  decide
